import Mathlib

/-!
Verification development for the chargefinder repository.

The JavaScript sources are shallowly embedded in Lean:
* optional / nullable upstream fields become `Option` types;
* JavaScript numbers become `ℚ` (every constant in the sources is an exact
  decimal, and only order comparisons and field arithmetic are performed);
* the transcendental Haversine formula (`calculateDistance` in
  src/utils/distance.js) is abstracted as an arbitrary distance function
  `calculateDistance : Coord → Coord → ℚ` that the pipeline definitions take
  as a parameter; a `NaN` distance arising from a missing coordinate is
  modelled by `Option ℚ` together with `distLE` (a comparison with `NaN` is
  false in JavaScript, and `distLE none t = false`);
* JavaScript string truthiness (`s || d` picks `d` for `null`, `undefined`
  and `""`) is modelled by `jsStr`, numeric truthiness by explicit `= 0`
  tests, and the stable `Array.prototype.sort` by `jsStableSort`.
-/

namespace ChargeFinder

/-! ## JavaScript helper semantics -/

/-- Model of `a || dflt` for a nullable JavaScript string `a`: the default is
taken when the value is `null`/`undefined` or the empty string (both falsy). -/
def jsStr (a : Option String) (dflt : String) : String :=
  match a with
  | some s => if s = "" then dflt else s
  | none => dflt

/-- Model of `a || null` for a nullable JavaScript string `a`: an empty string
collapses to `null`. -/
def jsStrOrNull (a : Option String) : Option String :=
  match a with
  | some s => if s = "" then none else some s
  | none => none

/-- Model of JavaScript `String.prototype.includes`: `s` contains `pat` as a
substring.  `splitOn` produces more than one chunk exactly when the separator
occurs; the empty pattern is always contained. -/
def strIncludes (s pat : String) : Bool :=
  pat = "" || (s.splitOn pat).length != 1

/-- Model of `Math.round`: round half away from zero upward (JavaScript rounds
ties toward positive infinity). -/
def jsRound (q : ℚ) : ℤ := ⌊q + 1/2⌋

/-! ## Geo math (src/utils/distance.js)

`calculateDistance` (Haversine, Earth radius 6371 km) is transcendental, so
the pipeline definitions below abstract it as a parameter
`calculateDistance : Coord → Coord → ℚ`.  The two walking-time conversions are
exact rational arithmetic and are embedded literally. -/

/-- A fully numeric WGS84 coordinate `{lat, lng}`. -/
structure Coord where
  lat : ℚ
  lng : ℚ
deriving DecidableEq

/-- A coordinate as it appears on a raw record: either component may be
missing (`undefined` in JavaScript, making any distance through it `NaN`). -/
structure OptCoord where
  lat : Option ℚ
  lng : Option ℚ
deriving DecidableEq

/-- Embedding of `walkingTimeToDistanceKm`: minutes at 3.1 mph, converted
from miles to km with the factor 1.60934. -/
def walkingTimeToDistanceKm (minutes : ℚ) : ℚ :=
  minutes / 60 * (31/10) * (160934/100000)

/-- Embedding of `calculateWalkingTime` from src/utils/distance.js: km to
miles with the factor 0.621371, walking speed 3.1 mph, then the label rules
of the source (`< 1 min`, rounded minutes, hours with a plural `s`, or hours
plus rounded remaining minutes). -/
def calculateWalkingTime (distanceKm : ℚ) : String :=
  let distanceMiles := distanceKm * (621371/1000000)
  let walkingSpeedMph : ℚ := 31/10
  let minutes := distanceMiles / walkingSpeedMph * 60
  if minutes < 1 then "< 1 min"
  else if minutes < 60 then toString (jsRound minutes) ++ " min"
  else
    let hours : ℤ := ⌊minutes / 60⌋
    let remainingMinutes : ℤ := jsRound (minutes - 60 * (hours : ℚ))
    if remainingMinutes = 0 then
      toString hours ++ " hr" ++ (if 1 < hours then "s" else "")
    else
      toString hours ++ " hr " ++ toString remainingMinutes ++ " min"

/-- The distance from a numeric coordinate to a possibly ill-shaped one:
`none` models the `NaN` JavaScript produces when a component is missing. -/
def calculateDistanceOpt (calculateDistance : Coord → Coord → ℚ)
    (a : Coord) (b : OptCoord) : Option ℚ :=
  match b.lat, b.lng with
  | some blat, some blng => some (calculateDistance a { lat := blat, lng := blng })
  | _, _ => none

/-- Model of `d <= t` on a possibly-`NaN` distance: every comparison with
`NaN` is false in JavaScript. -/
def distLE : Option ℚ → ℚ → Bool
  | some d, t => decide (d ≤ t)
  | none, _ => false

/-! ## Raw upstream charger records (Open Charge Map POI shape)

Only the fields read by `parseChargerData` are modelled; every one of them is
optional upstream. -/

/-- An upstream object carrying just a `Title` (ConnectionType, Level,
OperatorInfo). -/
structure RawTitled where
  Title : Option String := none
deriving DecidableEq

/-- Upstream `StatusType` metadata. -/
structure RawStatusType where
  ID : Option ℤ := none
  Title : Option String := none
  IsOperational : Option Bool := none
deriving DecidableEq

/-- Upstream `UsageType` metadata. -/
structure RawUsageType where
  Title : Option String := none
  IsMembershipRequired : Option Bool := none
  IsAccessKeyRequired : Option Bool := none
  IsPayAtLocation : Option Bool := none
deriving DecidableEq

/-- Upstream `AddressInfo` metadata. -/
structure RawAddressInfo where
  Title : Option String := none
  AddressLine1 : Option String := none
  Latitude : Option ℚ := none
  Longitude : Option ℚ := none
deriving DecidableEq

/-- One upstream connection (connector) record. -/
structure RawConnection where
  PowerKW : Option ℚ := none
  ConnectionType : Option RawTitled := none
  Level : Option RawTitled := none
  LevelID : Option ℤ := none
  StatusType : Option RawStatusType := none
deriving DecidableEq

/-- One raw charger POI as consumed by `parseChargerData`. -/
structure RawCharger where
  ID : ℤ
  AddressInfo : Option RawAddressInfo := none
  Connections : Option (List RawConnection) := none
  UsageCost : Option String := none
  UsageType : Option RawUsageType := none
  StatusType : Option RawStatusType := none
  OperatorInfo : Option RawTitled := none
  GeneralComments : Option String := none
  DateLastStatusUpdate : Option String := none
  NumberOfPoints : Option ℤ := none
deriving DecidableEq

/-! ## Canonical charger shape produced by `parseChargerData` -/

/-- One normalized connector entry. -/
structure ConnectorData where
  type : String
  power : ℚ
  level : String
  status : Option String
  statusIsOperational : Option Bool
deriving DecidableEq

/-- The nested `status` object of a parsed charger. -/
structure ChargerStatus where
  id : Option ℤ
  title : String
  isOperational : Option Bool
  lastUpdated : Option String
deriving DecidableEq

/-- The nested `access` object of a parsed charger. -/
structure ChargerAccess where
  title : String
  category : String
  isMembershipRequired : Option Bool
  isPayAtLocation : Option Bool
deriving DecidableEq

/-- The nested `availability` object of a parsed charger. -/
structure ChargerAvailability where
  hasLiveStatus : Bool
deriving DecidableEq

/-- The canonical charger produced by `parseChargerData`.  `placeId` and
`distanceFromPlace` are absent at normalization time and stamped later by the
correlation step. -/
structure ParsedCharger where
  id : ℤ
  name : String
  address : String
  location : OptCoord
  speed : String
  powerTier : String
  maxPower : ℚ
  minPower : Option ℚ
  hasMultiplePowerLevels : Bool
  isFree : Bool
  cost : String
  status : ChargerStatus
  access : ChargerAccess
  numberOfPoints : Option ℤ
  operator : Option String
  comments : String
  connectors : List ConnectorData
  availability : ChargerAvailability
  placeId : Option String := none
  distanceFromPlace : Option ℚ := none
deriving DecidableEq

/-! ## parseChargerData (src/services/openChargeMap.js)

Each local `const` of the source function is lifted to a named definition so
the theorems can speak about it. -/

/-- The source's `connections = charger.Connections || []`. -/
def connectionsOf (charger : RawCharger) : List RawConnection :=
  charger.Connections.getD []

/-- The source's `powerValues`: per-connection `PowerKW || 0`, keeping only
strictly positive values. -/
def powerValuesOf (charger : RawCharger) : List ℚ :=
  ((connectionsOf charger).map (fun c => c.PowerKW.getD 0)).filter (fun p => 0 < p)

/-- The source's `maxPower`: `Math.max(...powerValues)` when non-empty,
otherwise 0. -/
def maxPowerOf (charger : RawCharger) : ℚ :=
  match powerValuesOf charger with
  | [] => 0
  | p :: ps => ps.foldl max p

/-- The source's `minPower`: `Math.min(...powerValues)` when non-empty,
otherwise 0. -/
def minPowerOf (charger : RawCharger) : ℚ :=
  match powerValuesOf charger with
  | [] => 0
  | p :: ps => ps.foldl min p

/-- The source's `hasMultiplePowerLevels`. -/
def hasMultiplePowerLevelsOf (charger : RawCharger) : Bool :=
  1 < (powerValuesOf charger).length && minPowerOf charger != maxPowerOf charger

/-- The source's `derivePowerTier` closure, with its captured `maxPower` made
an argument.  Returns the `(code, label)` pair. -/
def derivePowerTier (maxPower : ℚ) : String × String :=
  if maxPower ≤ 37/10 then ("level1", "Level 1")
  else if maxPower ≤ 22 then ("level2", "Level 2")
  else if 22 < maxPower then ("dc_fast", "DC Fast")
  else ("unknown", "Unknown")

/-- The source's `deriveAccessCategory` closure.  An `Option Bool` flag is
truthy exactly when it is `some true`. -/
def deriveAccessCategory (charger : RawCharger) : String :=
  let usage := charger.UsageType.getD {}
  let title := (jsStr usage.Title "").toLower
  if usage.IsMembershipRequired = some true then "permit"
  else if usage.IsAccessKeyRequired = some true then "restricted"
  else if strIncludes title "parking" then "parking"
  else if strIncludes title "public" then "public"
  else if strIncludes title "private" then "private"
  else if strIncludes title "restricted" then "restricted"
  else "unknown"

/-- The source's `usageCost = charger.UsageCost || ''`. -/
def usageCostOf (charger : RawCharger) : String :=
  jsStr charger.UsageCost ""

/-- The source's `isPayAtLocation = charger.UsageType?.IsPayAtLocation ?? false`. -/
def isPayAtLocationOf (charger : RawCharger) : Bool :=
  (charger.UsageType.bind RawUsageType.IsPayAtLocation).getD false

/-- The source's `isFree`.  After `|| ''` the value is always a string, so the
source's `!== null` and `typeof === 'string'` guards are identically true and
the remaining conditions are: non-empty, contains `free` case-insensitively,
and not pay-at-location. -/
def isFreeOf (charger : RawCharger) : Bool :=
  usageCostOf charger != "" &&
  strIncludes (usageCostOf charger).toLower "free" &&
  !(isPayAtLocationOf charger)

/-- The source's `cost` field:
`usageCost && usageCost !== '' ? usageCost : (isFree ? 'Free' : (isPayAtLocation ? 'Pay At Location' : 'Paid'))`. -/
def costOf (charger : RawCharger) : String :=
  if usageCostOf charger != "" then usageCostOf charger
  else if isFreeOf charger then "Free"
  else if isPayAtLocationOf charger then "Pay At Location"
  else "Paid"

/-- The source's `statusType = charger.StatusType || {}`. -/
def statusTypeOf (charger : RawCharger) : RawStatusType :=
  charger.StatusType.getD {}

/-- The source's `statusTitle = (statusType.Title || '').toLowerCase()`. -/
def statusTitleOf (charger : RawCharger) : String :=
  (jsStr (statusTypeOf charger).Title "").toLower

/-- The source's `isNonOperationalStatus`. -/
def isNonOperationalStatusOf (charger : RawCharger) : Bool :=
  strIncludes (statusTitleOf charger) "unavailable" ||
  strIncludes (statusTitleOf charger) "planned" ||
  strIncludes (statusTitleOf charger) "removed" ||
  strIncludes (statusTitleOf charger) "decommissioned"

/-- The source's `connectionOperational`: some connection has a `StatusType`
whose `IsOperational` is exactly `true`. -/
def connectionOperationalOf (charger : RawCharger) : Bool :=
  (connectionsOf charger).any
    (fun c => (c.StatusType.bind RawStatusType.IsOperational) == some true)

/-- The source's `isOperational` priority chain; `none` is the unknown state. -/
def isOperationalOf (charger : RawCharger) : Option Bool :=
  if (statusTypeOf charger).IsOperational == some false || isNonOperationalStatusOf charger then
    some false
  else if (statusTypeOf charger).IsOperational == some true then
    some true
  else if connectionOperationalOf charger then
    some true
  else
    none

/-- The source's `connectorData` mapping. -/
def connectorDataOf (charger : RawCharger) : List ConnectorData :=
  (connectionsOf charger).map (fun c =>
    { type := jsStr (c.ConnectionType.bind RawTitled.Title) "Unknown"
      power := c.PowerKW.getD 0
      level := jsStr (c.Level.bind RawTitled.Title)
        (if (c.LevelID.getD 0 : ℤ) != 0 then "Level " ++ toString (c.LevelID.getD 0 : ℤ)
         else "Unknown")
      status := jsStrOrNull (c.StatusType.bind RawStatusType.Title)
      statusIsOperational := c.StatusType.bind RawStatusType.IsOperational })

/-- The source's `hasLiveStatus = connectorData.some((c) => c.status)`; an
`Option String` is truthy when it is a non-empty string. -/
def hasLiveStatusOf (charger : RawCharger) : Bool :=
  (connectorDataOf charger).any (fun c =>
    match c.status with
    | some s => s != ""
    | none => false)

/-- The source's `numberOfPoints: charger.NumberOfPoints || connectorData.length || null`
(a numeric 0 is falsy). -/
def numberOfPointsOf (charger : RawCharger) : Option ℤ :=
  if charger.NumberOfPoints.getD 0 != 0 then some (charger.NumberOfPoints.getD 0)
  else if (connectorDataOf charger).length != 0 then some ((connectorDataOf charger).length : ℤ)
  else none

/-- Embedding of `parseChargerData`: normalizes one raw POI into the
canonical charger shape. -/
def parseChargerData (charger : RawCharger) : ParsedCharger :=
  { id := charger.ID
    name := jsStr (charger.AddressInfo.bind RawAddressInfo.Title) "Unnamed Charger"
    address := jsStr (charger.AddressInfo.bind RawAddressInfo.AddressLine1) ""
    location :=
      { lat := charger.AddressInfo.bind RawAddressInfo.Latitude
        lng := charger.AddressInfo.bind RawAddressInfo.Longitude }
    speed := (derivePowerTier (maxPowerOf charger)).2
    powerTier := (derivePowerTier (maxPowerOf charger)).1
    maxPower := maxPowerOf charger
    minPower := if hasMultiplePowerLevelsOf charger then some (minPowerOf charger) else none
    hasMultiplePowerLevels := hasMultiplePowerLevelsOf charger
    isFree := isFreeOf charger
    cost := costOf charger
    status :=
      { id := (statusTypeOf charger).ID
        title := jsStr (statusTypeOf charger).Title "Unknown status"
        isOperational := isOperationalOf charger
        lastUpdated := jsStrOrNull charger.DateLastStatusUpdate }
    access :=
      { title := jsStr (charger.UsageType.bind RawUsageType.Title) "Unknown access"
        category := deriveAccessCategory charger
        isMembershipRequired := charger.UsageType.bind RawUsageType.IsMembershipRequired
        isPayAtLocation := charger.UsageType.bind RawUsageType.IsPayAtLocation }
    numberOfPoints := numberOfPointsOf charger
    operator := jsStrOrNull (charger.OperatorInfo.bind RawTitled.Title)
    comments := jsStr charger.GeneralComments ""
    connectors := connectorDataOf charger
    availability := { hasLiveStatus := hasLiveStatusOf charger } }

/-! ## Place search results (src/services/googleMaps.js, searchPlaces)

Only the pure mapping/filtering of `Place.searchByText` results is modelled.
The raw fields summarize what the source reads: `locLat`/`locLng` are the
numeric value of `place.location.lat`/`lng` (whether property or method) or
`none` when absent or non-numeric. -/

/-- One raw place result from the Places API. -/
structure RawPlaceResult where
  id : Option String := none
  place_id : Option String := none
  displayName : Option String := none
  name : Option String := none
  formattedAddress : Option String := none
  locLat : Option ℚ := none
  locLng : Option ℚ := none
  rating : Option ℚ := none
  userRatingCount : Option ℤ := none
  types : List String := []
deriving DecidableEq

/-- One formatted place in the legacy shape used by the UI. -/
structure MappedPlace where
  place_id : String
  name : String
  formatted_address : String
  lat : Option ℚ
  lng : Option ℚ
  rating : Option ℚ
  user_ratings_total : Option ℤ
  vicinity : String
  types : List String
deriving DecidableEq

/-- The per-place mapping inside `searchPlaces`:
`place.id || place.place_id || ''`, `displayName?.text || displayName || name || ''`,
formatted address, the (possibly missing) numeric coordinates, rating data and
the formatted address again as `vicinity`. -/
def mapPlaceResult (place : RawPlaceResult) : MappedPlace :=
  { place_id := jsStr place.id (jsStr place.place_id "")
    name := jsStr place.displayName (jsStr place.name "")
    formatted_address := jsStr place.formattedAddress ""
    lat := place.locLat
    lng := place.locLng
    rating := place.rating
    user_ratings_total := place.userRatingCount
    vicinity := jsStr place.formattedAddress ""
    types := place.types }

/-- The `formattedResults` pipeline of `searchPlaces`: map every raw result,
then keep only the ones whose latitude and longitude are both numeric. -/
def formatPlaces (places : List RawPlaceResult) : List MappedPlace :=
  (places.map mapPlaceResult).filter (fun p => p.lat.isSome && p.lng.isSome)

/-! ## MapView data model (src/components/MapView.jsx) -/

/-- A place as held in MapView state: its id, numeric coordinate (search
results with non-numeric coordinates were already dropped), and the derived
fields the pipeline recomputes. -/
structure Place where
  place_id : String
  name : String := ""
  lat : ℚ
  lng : ℚ
  chargerCount : Option Nat := none
  featuredCharger : Option ParsedCharger := none
deriving DecidableEq

/-- The numeric coordinate of a place. -/
def placeCoord (p : Place) : Coord := { lat := p.lat, lng := p.lng }

/-- The filter-criteria object of MapView (`filters` state). -/
structure Filters where
  operational : Bool
  access : String
  cost : String
  speed : String
  connectors : List String
  walkingTime : ℚ
  searchRadius : ℚ
deriving DecidableEq

/-! ### Correlation step (loadDataFromLocation, lines 174-204) -/

/-- Stamping a surviving charger with its owning place id and its distance
from that place (the two mutations in the `parsedChargers.forEach`). -/
def stampCharger (pid : String) (d : Option ℚ) (c : ParsedCharger) : ParsedCharger :=
  { c with placeId := some pid, distanceFromPlace := d }

/-- One iteration of the `chargerResults.forEach` loop: parse the raw
chargers fetched near one place, keep those within the walking-distance
threshold, and stamp the survivors. -/
def correlatePlaceChargers (calculateDistance : Coord → Coord → ℚ)
    (walkingDistanceKm : ℚ) (place : Place) (rawList : List RawCharger) :
    List ParsedCharger :=
  ((rawList.map parseChargerData).filter
      (fun c => distLE (calculateDistanceOpt calculateDistance (placeCoord place) c.location)
        walkingDistanceKm)).map
    (fun c => stampCharger place.place_id
      (calculateDistanceOpt calculateDistance (placeCoord place) c.location) c)

/-- The whole correlation loop: the i-th raw charger list belongs to the i-th
place; all surviving stamped chargers are concatenated into `allChargers`. -/
def correlateChargers (calculateDistance : Coord → Coord → ℚ) (walkingTime : ℚ)
    (places : List Place) (chargerResults : List (List RawCharger)) :
    List ParsedCharger :=
  ((places.zip chargerResults).map
      (fun pl => correlatePlaceChargers calculateDistance
        (walkingTimeToDistanceKm walkingTime) pl.1 pl.2)).flatten

/-- The `updatedPlaces` computation of `loadDataFromLocation`: each place's
`chargerCount` becomes the number of chargers stamped with its id. -/
def updateChargerCounts (allChargers : List ParsedCharger) (places : List Place) :
    List Place :=
  places.map (fun place =>
    { place with
      chargerCount := some ((allChargers.filter
        (fun c => c.placeId == some place.place_id)).length) })

/-! ### Filter pipeline (MapView filter effect, lines 384-425) -/

/-- The six sequential filters of the filter effect.  Each guard reproduces
the source's JavaScript truthiness test (an empty string and 0 are falsy). -/
def applyChargerFilters (calculateDistance : Coord → Coord → ℚ) (filters : Filters)
    (places : List Place) (chargers : List ParsedCharger) : List ParsedCharger :=
  let f1 := if filters.operational then
      chargers.filter (fun c => c.status.isOperational == some true)
    else chargers
  let f2 := if filters.access != "" && filters.access != "all" then
      f1.filter (fun c => c.access.category == filters.access)
    else f1
  let f3 := if filters.cost != "" && filters.cost != "all" then
      f2.filter (fun c => if filters.cost == "free" then c.isFree else c.isFree == false)
    else f2
  let f4 := if filters.speed != "" && filters.speed != "all" then
      f3.filter (fun c => c.powerTier == filters.speed)
    else f3
  let f5 := if filters.connectors != [] then
      f4.filter (fun c =>
        filters.connectors.any (fun sel => (c.connectors.map ConnectorData.type).contains sel))
    else f4
  let f6 := if filters.walkingTime != 0 then
      f5.filter (fun c =>
        match places.find? (fun p => some p.place_id == c.placeId) with
        | none => false
        | some place => distLE
            (calculateDistanceOpt calculateDistance (placeCoord place) c.location)
            (walkingTimeToDistanceKm filters.walkingTime))
    else f5
  f6

/-! ### Stable sorting (model of Array.prototype.sort)

JavaScript's sort is stable and orders by the sign of a comparator; it is
modelled as an insertion sort where `le a b` means the comparator on `(a, b)`
returns a non-positive value.  A later element is inserted after every
earlier element it ties with, which is exactly stability. -/

/-- Insert `x` (a later element) into the already sorted `l`, after every
element `y` with `le y x`. -/
def jsSortInsert (le : α → α → Bool) (x : α) : List α → List α
  | [] => [x]
  | y :: ys => if le y x then y :: jsSortInsert le x ys else x :: y :: ys

/-- Stable sort: fold the list left to right into a sorted accumulator. -/
def jsStableSort (le : α → α → Bool) (l : List α) : List α :=
  l.foldl (fun acc x => jsSortInsert le x acc) []

/-! ### Place sorting by origin distance (lines 156-161 and 444-449) -/

/-- The sort key of one place: `distances[pid]?.distanceValue || Infinity`.
A missing entry, a `null` distance value and the falsy value 0 all become
`Infinity` (`⊤`). -/
def jsDistKey (distances : List (String × Option ℚ)) (pid : String) : WithTop ℚ :=
  match distances.lookup pid with
  | some (some v) => if v = 0 then ⊤ else (v : WithTop ℚ)
  | some none => ⊤
  | none => ⊤

/-- The comparator `distA - distB` of the places sort, as a boolean `le`.
Two infinite keys compare as a tie (`NaN` is treated like 0 by `sort`). -/
def placeDistLe (distances : List (String × Option ℚ)) (a b : Place) : Bool :=
  decide (jsDistKey distances a.place_id ≤ jsDistKey distances b.place_id)

/-- The places sort used after fetching and after every filter pass. -/
def sortPlacesByDistance (distances : List (String × Option ℚ)) (places : List Place) :
    List Place :=
  jsStableSort (placeDistLe distances) places

/-! ### Featured charger and per-place annotation (lines 428-442) -/

/-- The status rank of the featured-charger comparator:
`a.status?.isOperational ? 1 : 0` (truthiness collapses `false` and `null`). -/
def opRank (c : ParsedCharger) : ℕ :=
  if c.status.isOperational = some true then 1 else 0

/-- The featured-charger comparator as a boolean `le`: status rank
descending, then `maxPower` descending. -/
def featuredLe (a b : ParsedCharger) : Bool :=
  if opRank a = opRank b then decide (b.maxPower ≤ a.maxPower)
  else decide (opRank b ≤ opRank a)

/-- The source's `featuredCharger`: first element of the stably sorted
surviving chargers of one place (`undefined`, i.e. `none`, when empty). -/
def featuredChargerOf (placeChargers : List ParsedCharger) : Option ParsedCharger :=
  (jsStableSort featuredLe placeChargers).head?

/-- The first charger attaining the maximal `maxPower`, scanning in original
order (a later charger replaces the current best only when strictly more
powerful). -/
def firstMaxByPower (l : List ParsedCharger) : Option ParsedCharger :=
  l.foldl (fun best x =>
    match best with
    | none => some x
    | some b => if b.maxPower < x.maxPower then some x else some b) none

/-- The `updatedPlaces` computation of the filter effect: per-place charger
count and featured charger over the filtered charger set. -/
def annotatePlaces (filtered : List ParsedCharger) (places : List Place) : List Place :=
  places.map (fun place =>
    let placeChargers := filtered.filter (fun c => c.placeId == some place.place_id)
    { place with
      chargerCount := some placeChargers.length
      featuredCharger := featuredChargerOf placeChargers })

/-! ## Lemmas about the stable sort model -/

/-- Inserting an element permutes it to the front of the old list. -/
theorem jsSortInsert_perm (le : α → α → Bool) (x : α) (l : List α) :
    (jsSortInsert le x l).Perm (x :: l) := by
  induction l with
  | nil => simp [jsSortInsert]
  | cons y ys ih =>
    by_cases h : le y x = true
    · simp only [jsSortInsert, h, if_true]
      exact (ih.cons y).trans (List.Perm.swap x y ys)
    · simp [jsSortInsert, h]

/-- The stable sort is a permutation of its input. -/
theorem jsStableSort_perm (le : α → α → Bool) (l : List α) :
    (jsStableSort le l).Perm l := by
  suffices aux : ∀ (l acc : List α),
      (l.foldl (fun acc x => jsSortInsert le x acc) acc).Perm (acc ++ l) by
    simpa using aux l []
  intro l
  induction l with
  | nil => intro acc; simp
  | cons x xs ih =>
    intro acc
    simp only [List.foldl_cons]
    refine (ih (jsSortInsert le x acc)).trans ?_
    refine (List.Perm.append_right xs (jsSortInsert_perm le x acc)).trans ?_
    exact List.perm_middle.symm

/-- The fold step characterizing the head of the sorted list: keep the
current best, replace it only when the new element sorts strictly earlier. -/
def jsPick (le : α → α → Bool) (best : Option α) (x : α) : Option α :=
  match best with
  | none => some x
  | some b => if le b x then some b else some x

theorem jsSortInsert_head? (le : α → α → Bool) (x : α) (l : List α) :
    (jsSortInsert le x l).head? = jsPick le l.head? x := by
  cases l with
  | nil => rfl
  | cons y ys => by_cases h : le y x = true <;> simp [jsSortInsert, jsPick, h]

/-- The head of the stable sort is the left fold of `jsPick` over the input. -/
theorem jsStableSort_head? (le : α → α → Bool) (l : List α) :
    (jsStableSort le l).head? = l.foldl (jsPick le) none := by
  suffices aux : ∀ (l acc : List α),
      (l.foldl (fun acc x => jsSortInsert le x acc) acc).head? =
        l.foldl (jsPick le) acc.head? by
    simpa using aux l []
  intro l
  induction l with
  | nil => intro acc; rfl
  | cons x xs ih =>
    intro acc
    simp only [List.foldl_cons]
    rw [ih, jsSortInsert_head?]

section KeySort

variable {β : Type*} [LinearOrder β]

/-- Inserting into a list sorted by a key keeps it sorted by that key. -/
theorem jsSortInsert_pairwise_key (key : α → β) (x : α) (l : List α)
    (h : l.Pairwise (fun a b => key a ≤ key b)) :
    (jsSortInsert (fun a b => decide (key a ≤ key b)) x l).Pairwise
      (fun a b => key a ≤ key b) := by
  induction l with
  | nil => simp [jsSortInsert]
  | cons y ys ih =>
    rcases List.pairwise_cons.mp h with ⟨hy, hys⟩
    by_cases hyx : key y ≤ key x
    · have hins : jsSortInsert (fun a b => decide (key a ≤ key b)) x (y :: ys) =
          y :: jsSortInsert (fun a b => decide (key a ≤ key b)) x ys := by
        simp [jsSortInsert, hyx]
      rw [hins]
      refine List.pairwise_cons.mpr ⟨?_, ih hys⟩
      intro z hz
      have hz2 : z = x ∨ z ∈ ys := by
        simpa using (jsSortInsert_perm (fun a b => decide (key a ≤ key b)) x ys).mem_iff.mp hz
      rcases hz2 with rfl | hzys
      · exact hyx
      · exact hy z hzys
    · have hxy : key x ≤ key y := le_of_lt (not_le.mp hyx)
      have hins : jsSortInsert (fun a b => decide (key a ≤ key b)) x (y :: ys) =
          x :: y :: ys := by
        simp [jsSortInsert, hyx]
      rw [hins]
      refine List.pairwise_cons.mpr ⟨?_, h⟩
      intro z hz
      rcases List.mem_cons.mp hz with rfl | hzys
      · exact hxy
      · exact hxy.trans (hy z hzys)

/-- The stable sort by a key is sorted by that key. -/
theorem jsStableSort_pairwise_key (key : α → β) (l : List α) :
    (jsStableSort (fun a b => decide (key a ≤ key b)) l).Pairwise
      (fun a b => key a ≤ key b) := by
  suffices aux : ∀ (l acc : List α), acc.Pairwise (fun a b => key a ≤ key b) →
      (l.foldl (fun acc x => jsSortInsert (fun a b => decide (key a ≤ key b)) x acc)
        acc).Pairwise (fun a b => key a ≤ key b) by
    exact aux l [] (by simp)
  intro l
  induction l with
  | nil => intro acc h; exact h
  | cons x xs ih =>
    intro acc h
    simp only [List.foldl_cons]
    exact ih _ (jsSortInsert_pairwise_key key x acc h)

/-- Stability of the insertion against a sorted accumulator: the elements of
one key class stay in order, with the new element appended at the end of its
class. -/
theorem jsSortInsert_filter_key (key : α → β) (k : β) (x : α) (l : List α)
    (h : l.Pairwise (fun a b => key a ≤ key b)) :
    (jsSortInsert (fun a b => decide (key a ≤ key b)) x l).filter
        (fun a => decide (key a = k)) =
      l.filter (fun a => decide (key a = k)) ++ if key x = k then [x] else [] := by
  induction l with
  | nil => by_cases hk : key x = k <;> simp [jsSortInsert, hk]
  | cons y ys ih =>
    rcases List.pairwise_cons.mp h with ⟨hy, hys⟩
    by_cases hyx : key y ≤ key x
    · have hins : jsSortInsert (fun a b => decide (key a ≤ key b)) x (y :: ys) =
          y :: jsSortInsert (fun a b => decide (key a ≤ key b)) x ys := by
        simp [jsSortInsert, hyx]
      rw [hins]
      by_cases hyk : key y = k <;> simp [List.filter_cons, hyk, ih hys]
    · have hxy : key x < key y := not_le.mp hyx
      have hins : jsSortInsert (fun a b => decide (key a ≤ key b)) x (y :: ys) =
          x :: y :: ys := by
        simp [jsSortInsert, hyx]
      rw [hins]
      by_cases hk : key x = k
      · have hnil : (y :: ys).filter (fun a => decide (key a = k)) = [] := by
          refine List.filter_eq_nil_iff.mpr ?_
          intro z hz
          have hzk : k < key z := by
            rcases List.mem_cons.mp hz with rfl | hzys
            · rw [← hk]; exact hxy
            · rw [← hk]; exact hxy.trans_le (hy z hzys)
          simp [ne_of_gt hzk]
        rw [List.filter_cons, if_pos (by simp [hk]), hnil]
        simp [hk]
      · rw [List.filter_cons, if_neg (by simp [hk])]
        simp [hk]

/-- Stability of the stable sort: each key class of the output lists exactly
the input elements of that class, in their original order. -/
theorem jsStableSort_filter_key (key : α → β) (l : List α) (k : β) :
    (jsStableSort (fun a b => decide (key a ≤ key b)) l).filter
        (fun a => decide (key a = k)) =
      l.filter (fun a => decide (key a = k)) := by
  suffices aux : ∀ (l acc : List α), acc.Pairwise (fun a b => key a ≤ key b) →
      (l.foldl (fun acc x => jsSortInsert (fun a b => decide (key a ≤ key b)) x acc)
          acc).filter (fun a => decide (key a = k)) =
        acc.filter (fun a => decide (key a = k)) ++
          l.filter (fun a => decide (key a = k)) by
    simpa using aux l [] (by simp)
  intro l
  induction l with
  | nil => intro acc h; simp
  | cons x xs ih =>
    intro acc h
    simp only [List.foldl_cons]
    rw [ih _ (jsSortInsert_pairwise_key key x acc h),
      jsSortInsert_filter_key key k x acc h, List.filter_cons]
    by_cases hk : key x = k <;> simp [hk, List.append_assoc]

end KeySort

/-! ## Claim C1: free/paid derivation and cost label -/

/-- Claim-side condition (C1): the upstream usage-cost text is a non-empty
string containing the substring `free` case-insensitively, and the upstream
pay-at-location flag is not `true`. -/
def specFreeCondition (charger : RawCharger) : Prop :=
  (match charger.UsageCost with
   | some s => s ≠ "" ∧ strIncludes s.toLower "free" = true
   | none => False) ∧
  charger.UsageType.bind RawUsageType.IsPayAtLocation ≠ some true

/-- Claim-side cost fallback (C1): `Free` if the charger is free, else
`Pay At Location` if the pay-at-location flag is true, else `Paid`. -/
def specCostFallback (charger : RawCharger) : String :=
  if (parseChargerData charger).isFree then "Free"
  else if charger.UsageType.bind RawUsageType.IsPayAtLocation = some true then "Pay At Location"
  else "Paid"

/-- Claim-side cost label (C1): the upstream cost text when non-empty, else
the fallback chain. -/
def specCostLabel (charger : RawCharger) : String :=
  match charger.UsageCost with
  | some s => if s ≠ "" then s else specCostFallback charger
  | none => specCostFallback charger

/-- On an optional boolean, not-truthy is the same as not being `some true`. -/
theorem isPayAtLocation_false_iff (charger : RawCharger) :
    isPayAtLocationOf charger = false ↔
      charger.UsageType.bind RawUsageType.IsPayAtLocation ≠ some true := by
  unfold isPayAtLocationOf
  cases hb : charger.UsageType.bind RawUsageType.IsPayAtLocation with
  | none => simp
  | some b => cases b <;> simp

/-- C1: the normalizer sets `isFree = true` iff the upstream usage-cost text
is a non-empty string containing `free` (case-insensitive) and the upstream
pay-at-location flag is not true; in every other case `isFree = false`.  The
cost label is the upstream cost text when non-empty, else `Free` when
`isFree`, else `Pay At Location` when the pay-at-location flag is true, else
`Paid`. -/
theorem c1_isFree_and_costLabel (charger : RawCharger) :
    ((parseChargerData charger).isFree = true ↔ specFreeCondition charger) ∧
    (parseChargerData charger).cost = specCostLabel charger := by
  have hfree : (parseChargerData charger).isFree = isFreeOf charger := rfl
  have hcost : (parseChargerData charger).cost = costOf charger := rfl
  constructor
  · rw [hfree]
    cases hc : charger.UsageCost with
    | none => simp [isFreeOf, usageCostOf, jsStr, hc, specFreeCondition]
    | some s =>
      by_cases hs : s = ""
      · simp [isFreeOf, usageCostOf, jsStr, hc, hs, specFreeCondition]
      · have hpay := isPayAtLocation_false_iff charger
        simp [isFreeOf, usageCostOf, jsStr, hc, hs, specFreeCondition, hpay]
        try tauto
  · rw [hcost]
    cases hc : charger.UsageCost with
    | none =>
      cases hb : charger.UsageType.bind RawUsageType.IsPayAtLocation with
      | none =>
        simp [costOf, usageCostOf, jsStr, hc, specCostLabel, specCostFallback,
          isPayAtLocationOf, hb, hfree]
      | some b =>
        cases b <;>
          simp [costOf, usageCostOf, jsStr, hc, specCostLabel, specCostFallback,
            isPayAtLocationOf, hb, hfree]
    | some s =>
      by_cases hs : s = ""
      · cases hb : charger.UsageType.bind RawUsageType.IsPayAtLocation with
        | none =>
          simp [costOf, usageCostOf, jsStr, hc, hs, specCostLabel, specCostFallback,
            isPayAtLocationOf, hb, hfree]
        | some b =>
          cases b <;>
            simp [costOf, usageCostOf, jsStr, hc, hs, specCostLabel, specCostFallback,
              isPayAtLocationOf, hb, hfree]
      · simp [costOf, usageCostOf, jsStr, hc, hs, specCostLabel]

/-! ## Claim C2: operational tri-state derivation -/

/-- Claim-side condition (C2): the upstream status title contains one of the
four non-operational words, case-insensitively. -/
def specTitleNonOperational (charger : RawCharger) : Prop :=
  strIncludes (statusTitleOf charger) "unavailable" = true ∨
  strIncludes (statusTitleOf charger) "planned" = true ∨
  strIncludes (statusTitleOf charger) "removed" = true ∨
  strIncludes (statusTitleOf charger) "decommissioned" = true

instance specTitleNonOperationalDecidable (charger : RawCharger) :
    Decidable (specTitleNonOperational charger) := by
  unfold specTitleNonOperational
  exact inferInstance

/-- Modelled from the claim (C2): the priority chain deriving the tri-state
operational status. -/
def specOperationalStatus (charger : RawCharger) : Option Bool :=
  if specTitleNonOperational charger ∨ (statusTypeOf charger).IsOperational = some false then
    some false
  else if (statusTypeOf charger).IsOperational = some true then
    some true
  else if ∃ c ∈ connectionsOf charger,
      c.StatusType.bind RawStatusType.IsOperational = some true then
    some true
  else
    none

/-- C2: the normalizer derives `operationalStatus` by the claimed priority
chain (title keywords or explicit false flag give `false`; else explicit true
flag gives `true`; else a connector reporting operational gives `true`; else
`null`), and `null` is distinct from `false`. -/
theorem c2_operationalStatus (charger : RawCharger) :
    (parseChargerData charger).status.isOperational = specOperationalStatus charger ∧
    (none : Option Bool) ≠ some false := by
  refine ⟨?_, by simp⟩
  have h : (parseChargerData charger).status.isOperational = isOperationalOf charger := rfl
  rw [h]
  unfold isOperationalOf specOperationalStatus
  by_cases h1 : specTitleNonOperational charger ∨ (statusTypeOf charger).IsOperational = some false
  · rw [if_pos h1, if_pos ?_]
    have hb : ((statusTypeOf charger).IsOperational == some false ||
        isNonOperationalStatusOf charger) = true := by
      rcases h1 with h1 | h1
      · apply Bool.or_eq_true_iff.mpr
        right
        unfold isNonOperationalStatusOf
        unfold specTitleNonOperational at h1
        rcases h1 with h | h | h | h <;> simp [h]
      · simp [h1]
    exact hb
  · rw [if_neg h1, if_neg ?_]
    swap
    · intro hcontra
      apply h1
      rcases Bool.or_eq_true_iff.mp hcontra with h | h
      · exact Or.inr (by simpa using h)
      · refine Or.inl ?_
        unfold isNonOperationalStatusOf at h
        unfold specTitleNonOperational
        rcases Bool.or_eq_true_iff.mp h with h | h
        · rcases Bool.or_eq_true_iff.mp h with h | h
          · rcases Bool.or_eq_true_iff.mp h with h | h
            · exact Or.inl h
            · exact Or.inr (Or.inl h)
          · exact Or.inr (Or.inr (Or.inl h))
        · exact Or.inr (Or.inr (Or.inr h))
    by_cases h2 : (statusTypeOf charger).IsOperational = some true
    · rw [if_pos h2, if_pos (by simp [h2])]
    · rw [if_neg h2, if_neg (by simpa using h2)]
      by_cases h3 : ∃ c ∈ connectionsOf charger,
          c.StatusType.bind RawStatusType.IsOperational = some true
      · rw [if_pos h3, if_pos ?_]
        unfold connectionOperationalOf
        rcases h3 with ⟨c, hc, hop⟩
        exact List.any_eq_true.mpr ⟨c, hc, by simp [hop]⟩
      · rw [if_neg h3, if_neg ?_]
        intro hcontra
        apply h3
        rcases List.any_eq_true.mp hcontra with ⟨c, hc, hop⟩
        exact ⟨c, hc, by simpa using hop⟩

/-! ## Claim C3: power tier derivation -/

/-- C3: the derived power tier is `level1` iff the maximal reported connector
power is at most 3.7 kW, `level2` iff it lies in (3.7, 22], and `dc_fast` iff
it exceeds 22 kW; the boundary values behave as claimed and the `unknown`
tier is never produced. -/
theorem c3_powerTier (charger : RawCharger) :
    ((parseChargerData charger).powerTier = "level1" ↔ maxPowerOf charger ≤ 37/10) ∧
    ((parseChargerData charger).powerTier = "level2" ↔
      (37/10 < maxPowerOf charger ∧ maxPowerOf charger ≤ 22)) ∧
    ((parseChargerData charger).powerTier = "dc_fast" ↔ 22 < maxPowerOf charger) ∧
    (parseChargerData charger).powerTier ≠ "unknown" ∧
    (derivePowerTier (37/10)).1 = "level1" ∧
    (derivePowerTier (3701/1000)).1 = "level2" ∧
    (derivePowerTier 22).1 = "level2" ∧
    (derivePowerTier (22001/1000)).1 = "dc_fast" ∧
    (derivePowerTier 0).1 = "level1" := by
  have htier : (parseChargerData charger).powerTier =
      (derivePowerTier (maxPowerOf charger)).1 := rfl
  refine ⟨?_, ?_, ?_, ?_, ?_, ?_, ?_, ?_, ?_⟩
  · rw [htier]
    unfold derivePowerTier
    split_ifs with hA hB hC
    · exact iff_of_true rfl hA
    · exact iff_of_false (by decide) hA
    · exact iff_of_false (by decide) hA
    · exact absurd (not_le.mp hB) hC
  · rw [htier]
    unfold derivePowerTier
    split_ifs with hA hB hC
    · exact iff_of_false (by decide) (fun hcon => absurd hA (not_le.mpr hcon.1))
    · exact iff_of_true rfl ⟨not_le.mp hA, hB⟩
    · exact iff_of_false (by decide) (fun hcon => absurd hcon.2 hB)
    · exact absurd (not_le.mp hB) hC
  · rw [htier]
    unfold derivePowerTier
    split_ifs with hA hB hC
    · exact iff_of_false (by decide) (fun hcon => absurd (hcon.trans_le hA) (by norm_num))
    · exact iff_of_false (by decide) (fun hcon => absurd hcon (not_lt.mpr hB))
    · exact iff_of_true rfl hC
    · exact absurd (not_le.mp hB) hC
  · rw [htier]
    unfold derivePowerTier
    split_ifs with hA hB hC
    · decide
    · decide
    · decide
    · exact absurd (not_le.mp hB) hC
  · norm_num [derivePowerTier]
  · norm_num [derivePowerTier]
  · norm_num [derivePowerTier]
  · norm_num [derivePowerTier]
  · norm_num [derivePowerTier]

/-! ## Claim C4: conjunctive filter pipeline -/

/-- Membership in one guarded filter stage: the element survives iff it was
there before and, when the guard is active, it passes the predicate. -/
theorem mem_guardFilter {p : α → Bool} {l : List α} {b : Bool} {c : α} :
    (c ∈ if b then l.filter p else l) ↔ c ∈ l ∧ (b = true → p c = true) := by
  cases b <;> simp [List.mem_filter]

/-- The connector predicate of the filter effect is the claim's existential:
some connector of the charger has a selected type. -/
theorem connectorsPred_iff (c : ParsedCharger) (sels : List String) :
    ((sels.any (fun sel => (c.connectors.map ConnectorData.type).contains sel)) = true) ↔
      ∃ conn ∈ c.connectors, conn.type ∈ sels := by
  simp only [List.any_eq_true, List.elem_iff, List.mem_map]
  constructor
  · rintro ⟨sel, hsel, conn, hconn, hty⟩
    exact ⟨conn, hconn, hty ▸ hsel⟩
  · rintro ⟨conn, hconn, hsel⟩
    exact ⟨conn.type, hsel, conn, hconn, rfl⟩

/-- The cost predicate of the filter effect is equality of `isFree` with
`cost = "free"`. -/
theorem costPred_iff (c : ParsedCharger) (cost : String) :
    ((if cost = "free" then c.isFree else c.isFree == false) = true) ↔
      c.isFree = decide (cost = "free") := by
  by_cases h : cost = "free" <;> simp [h]

/-- Membership in one guarded filter stage, for a propositional guard. -/
theorem mem_guardFilterP {p : α → Bool} {l : List α} {P : Prop} [Decidable P] {c : α} :
    (c ∈ if P then l.filter p else l) ↔ c ∈ l ∧ (P → p c = true) := by
  by_cases h : P <;> simp [h, List.mem_filter]

/-- The walking-time predicate of the filter effect holds iff the owning
place is found and the distance to it is within the threshold. -/
theorem walkingPred_iff (calculateDistance : Coord → Coord → ℚ)
    (places : List Place) (thr : ℚ) (c : ParsedCharger) :
    ((match places.find? (fun p => some p.place_id == c.placeId) with
      | none => false
      | some place =>
          distLE (calculateDistanceOpt calculateDistance (placeCoord place) c.location)
            thr) = true) ↔
      ∃ place, places.find? (fun p => some p.place_id == c.placeId) = some place ∧
        distLE (calculateDistanceOpt calculateDistance (placeCoord place) c.location)
          thr = true := by
  cases hfind : places.find? (fun p => some p.place_id == c.placeId) with
  | none => simp [hfind]
  | some place => simp [hfind]

set_option maxHeartbeats 1000000 in
/-- C4: a charger appears in the filtered output iff it is an input charger
passing every active predicate: operational-only admits only
`isOperational = some true`; the access, cost and speed criteria, when not
`all` (and not the falsy empty string), require equality with the charger's
category, free status and power tier; a non-empty connector selection
requires some connector of a selected type; and a non-zero walking-time
budget requires the distance to the owning place (looked up at filter time)
to be within the derived km threshold. -/
theorem c4_filter_membership (calculateDistance : Coord → Coord → ℚ)
    (filters : Filters) (places : List Place) (chargers : List ParsedCharger)
    (c : ParsedCharger) :
    c ∈ applyChargerFilters calculateDistance filters places chargers ↔
      c ∈ chargers ∧
      (filters.operational = true → c.status.isOperational = some true) ∧
      ((filters.access ≠ "" ∧ filters.access ≠ "all") → c.access.category = filters.access) ∧
      ((filters.cost ≠ "" ∧ filters.cost ≠ "all") →
        c.isFree = decide (filters.cost = "free")) ∧
      ((filters.speed ≠ "" ∧ filters.speed ≠ "all") → c.powerTier = filters.speed) ∧
      (filters.connectors ≠ [] →
        ∃ conn ∈ c.connectors, conn.type ∈ filters.connectors) ∧
      (filters.walkingTime ≠ 0 →
        ∃ place, places.find? (fun p => some p.place_id == c.placeId) = some place ∧
          distLE (calculateDistanceOpt calculateDistance (placeCoord place) c.location)
            (walkingTimeToDistanceKm filters.walkingTime) = true) := by
  unfold applyChargerFilters
  simp only [mem_guardFilter, mem_guardFilterP, costPred_iff, connectorsPred_iff,
    walkingPred_iff, beq_iff_eq, Bool.and_eq_true, bne_iff_ne, ne_eq]
  tauto

/-! ## Claim C5: correlation step -/

/-- A possibly-`NaN` distance is within the threshold iff it is an actual
number within the threshold. -/
theorem distLE_eq_true_iff (o : Option ℚ) (t : ℚ) :
    distLE o t = true ↔ ∃ d, o = some d ∧ d ≤ t := by
  cases o <;> simp [distLE]

/-- Unfolding of the correlation loop over one place. -/
theorem correlateChargers_cons (calculateDistance : Coord → Coord → ℚ) (wt : ℚ)
    (q : Place) (qs : List Place) (rs : List RawCharger) (rss : List (List RawCharger)) :
    correlateChargers calculateDistance wt (q :: qs) (rs :: rss) =
      correlatePlaceChargers calculateDistance (walkingTimeToDistanceKm wt) q rs ++
        correlateChargers calculateDistance wt qs rss := by
  simp [correlateChargers, List.zip_cons_cons]

/-- Membership characterization of the correlation output: an output charger
is exactly a parsed raw charger of some zipped place, whose distance to that
place is an actual number within the threshold, stamped with that place's id
and that distance. -/
theorem mem_correlateChargers (calculateDistance : Coord → Coord → ℚ) (wt : ℚ)
    (places : List Place) (chargerResults : List (List RawCharger)) (c : ParsedCharger) :
    c ∈ correlateChargers calculateDistance wt places chargerResults ↔
      ∃ place raws, (place, raws) ∈ places.zip chargerResults ∧
        ∃ r ∈ raws, ∃ d : ℚ,
          calculateDistanceOpt calculateDistance (placeCoord place)
            (parseChargerData r).location = some d ∧
          d ≤ walkingTimeToDistanceKm wt ∧
          c = stampCharger place.place_id (some d) (parseChargerData r) := by
  unfold correlateChargers
  rw [List.mem_flatten]
  constructor
  · rintro ⟨seg, hseg, hcseg⟩
    rcases List.mem_map.mp hseg with ⟨⟨place, raws⟩, hzip, rfl⟩
    rcases List.mem_map.mp hcseg with ⟨c0, hc0, rfl⟩
    rcases List.mem_filter.mp hc0 with ⟨hc0mem, hdist⟩
    rcases List.mem_map.mp hc0mem with ⟨r, hr, rfl⟩
    rcases (distLE_eq_true_iff _ _).mp hdist with ⟨d, hd, hdle⟩
    exact ⟨place, raws, hzip, r, hr, d, hd, hdle, by rw [hd]⟩
  · rintro ⟨place, raws, hzip, r, hr, d, hd, hdle, rfl⟩
    refine ⟨correlatePlaceChargers calculateDistance (walkingTimeToDistanceKm wt) place raws,
      List.mem_map.mpr ⟨⟨place, raws⟩, hzip, rfl⟩, ?_⟩
    unfold correlatePlaceChargers
    refine List.mem_map.mpr ⟨parseChargerData r, ?_, by rw [hd]⟩
    refine List.mem_filter.mpr ⟨List.mem_map.mpr ⟨r, hr, rfl⟩, ?_⟩
    rw [hd]
    simpa [distLE] using hdle

/-- Filtering one correlated segment by a place id keeps everything or
nothing, depending on whether the id is the segment's own. -/
theorem correlatePlaceChargers_filter (calculateDistance : Coord → Coord → ℚ)
    (thr : ℚ) (q : Place) (rs : List RawCharger) (pid : String) :
    (correlatePlaceChargers calculateDistance thr q rs).filter
        (fun c => c.placeId == some pid) =
      if q.place_id = pid then correlatePlaceChargers calculateDistance thr q rs
      else [] := by
  by_cases hq : q.place_id = pid
  · rw [if_pos hq]
    refine List.filter_eq_self.mpr ?_
    intro c hc
    unfold correlatePlaceChargers at hc
    rcases List.mem_map.mp hc with ⟨c0, _, rfl⟩
    simp [stampCharger, hq]
  · rw [if_neg hq]
    refine List.filter_eq_nil_iff.mpr ?_
    intro c hc
    unfold correlatePlaceChargers at hc
    rcases List.mem_map.mp hc with ⟨c0, _, rfl⟩
    simp [stampCharger, hq]

/-- With pairwise-distinct place ids, filtering the whole correlation output
by one zipped place's id yields exactly that place's own kept segment. -/
theorem correlateChargers_filter_placeId (calculateDistance : Coord → Coord → ℚ)
    (wt : ℚ) :
    ∀ (places : List Place) (chargerResults : List (List RawCharger))
      (p : Place) (raws : List RawCharger),
      (places.map Place.place_id).Nodup →
      (p, raws) ∈ places.zip chargerResults →
      (correlateChargers calculateDistance wt places chargerResults).filter
          (fun c => c.placeId == some p.place_id) =
        correlatePlaceChargers calculateDistance (walkingTimeToDistanceKm wt) p raws := by
  intro places
  induction places with
  | nil => intro chargerResults p raws _ hzip; simp at hzip
  | cons q qs ih =>
    intro chargerResults p raws hnd hzip
    cases chargerResults with
    | nil => simp at hzip
    | cons rs rss =>
      rw [List.zip_cons_cons, List.mem_cons] at hzip
      rw [List.map_cons, List.nodup_cons] at hnd
      rcases hnd with ⟨hqid, hndtail⟩
      rw [correlateChargers_cons, List.filter_append,
        correlatePlaceChargers_filter]
      rcases hzip with heq | htail
      · rcases Prod.mk.injEq .. ▸ heq with ⟨hp, hraws⟩
        subst hp
        subst hraws
        rw [if_pos rfl]
        have hrest : (correlateChargers calculateDistance wt qs rss).filter
            (fun c => c.placeId == some p.place_id) = [] := by
          refine List.filter_eq_nil_iff.mpr ?_
          intro c hc
          rcases (mem_correlateChargers calculateDistance wt qs rss c).mp hc with
            ⟨place, raws2, hzip2, r, _, d, _, _, rfl⟩
          have hplace : place ∈ qs := (List.of_mem_zip hzip2).1
          have : place.place_id ∈ qs.map Place.place_id := List.mem_map.mpr ⟨place, hplace, rfl⟩
          simp only [stampCharger]
          simp only [Option.some.injEq, beq_iff_eq, ne_eq]
          intro hcontra
          exact hqid (by simpa [hcontra] using this)
        rw [hrest, List.append_nil]
      · have hqp : q.place_id ≠ p.place_id := by
          intro hcontra
          have hp : p ∈ qs := (List.of_mem_zip htail).1
          exact hqid (by simpa [hcontra] using
            (List.mem_map.mpr ⟨p, hp, rfl⟩ : p.place_id ∈ qs.map Place.place_id))
        rw [if_neg hqp, List.nil_append]
        exact ih rss p raws hndtail htail

/-- C5: relative to the walking-time threshold, the correlation keeps exactly
the parsed chargers whose distance to their place is a number within the
threshold; each survivor is stamped with the owning place id and its distance
from that place; and (with distinct place ids) each place's recomputed
`chargerCount` is the number of chargers attached to it. -/
theorem c5_correlation (calculateDistance : Coord → Coord → ℚ) (wt : ℚ)
    (places : List Place) (chargerResults : List (List RawCharger)) :
    (∀ c, c ∈ correlateChargers calculateDistance wt places chargerResults ↔
      ∃ place raws, (place, raws) ∈ places.zip chargerResults ∧
        ∃ r ∈ raws, ∃ d : ℚ,
          calculateDistanceOpt calculateDistance (placeCoord place)
            (parseChargerData r).location = some d ∧
          d ≤ walkingTimeToDistanceKm wt ∧
          c = stampCharger place.place_id (some d) (parseChargerData r)) ∧
    ((places.map Place.place_id).Nodup →
      ∀ p raws, (p, raws) ∈ places.zip chargerResults →
        ∃ q ∈ updateChargerCounts
            (correlateChargers calculateDistance wt places chargerResults) places,
          q.place_id = p.place_id ∧
          q.chargerCount = some
            (correlatePlaceChargers calculateDistance
              (walkingTimeToDistanceKm wt) p raws).length) := by
  constructor
  · intro c
    exact mem_correlateChargers calculateDistance wt places chargerResults c
  · intro hnd p raws hzip
    have hp : p ∈ places := (List.of_mem_zip hzip).1
    refine ⟨_, List.mem_map.mpr ⟨p, hp, rfl⟩, rfl, ?_⟩
    rw [correlateChargers_filter_placeId calculateDistance wt places chargerResults
      p raws hnd hzip]

/-! ## Claim C6: place sorting by origin distance -/

/-- Claim-side key (C6): the pre-computed numeric distance value itself, with
only a place lacking a value treated as infinite. -/
def specDistKey (distances : List (String × Option ℚ)) (pid : String) : WithTop ℚ :=
  match distances.lookup pid with
  | some (some v) => (v : WithTop ℚ)
  | some none => ⊤
  | none => ⊤

/-- First concrete place of the C6 counterexample, at driving distance 0. -/
def c6PlaceA : Place := { place_id := "a", lat := 0, lng := 0 }

/-- Second concrete place of the C6 counterexample, at driving distance 5. -/
def c6PlaceB : Place := { place_id := "b", lat := 0, lng := 0 }

/-- The distance map of the C6 counterexample. -/
def c6Distances : List (String × Option ℚ) := [("a", some 0), ("b", some 5)]

/-- C6 counterexample: place `a` has the numeric distance value 0 and place
`b` the value 5, yet the sort puts `b` first — because the source's
`distanceValue || Infinity` treats the falsy value 0 as missing — so the
output is not ascending in the pre-computed numeric distance values and a
place that has a distance value is sorted after another one. -/
theorem c6_sort_counterexample :
    sortPlacesByDistance c6Distances [c6PlaceA, c6PlaceB] = [c6PlaceB, c6PlaceA] ∧
    specDistKey c6Distances c6PlaceA.place_id = ((0 : ℚ) : WithTop ℚ) ∧
    specDistKey c6Distances c6PlaceB.place_id = ((5 : ℚ) : WithTop ℚ) ∧
    ¬ (sortPlacesByDistance c6Distances [c6PlaceA, c6PlaceB]).Pairwise
        (fun x y => specDistKey c6Distances x.place_id ≤
          specDistKey c6Distances y.place_id) := by
  refine ⟨?_, ?_, ?_, ?_⟩
  · decide
  · decide
  · decide
  · intro hcontra
    have hsorted : sortPlacesByDistance c6Distances [c6PlaceA, c6PlaceB] =
        [c6PlaceB, c6PlaceA] := by decide
    rw [hsorted] at hcontra
    have h5 : specDistKey c6Distances c6PlaceB.place_id ≤
        specDistKey c6Distances c6PlaceA.place_id :=
      (List.pairwise_cons.mp hcontra).1 c6PlaceA (by simp)
    revert h5
    decide

/-- C6 amended: the sort is a stable ascending sort by the key
`distanceValue || Infinity`, i.e. a place lacking a distance value — or whose
distance value is the falsy number 0 — is treated as +infinity and sorts
after every place with a positive finite value; the output is a permutation
of the input and places with equal keys keep their original relative order. -/
theorem c6_sort_amended (distances : List (String × Option ℚ)) (places : List Place) :
    (sortPlacesByDistance distances places).Perm places ∧
    (sortPlacesByDistance distances places).Pairwise
      (fun a b => jsDistKey distances a.place_id ≤ jsDistKey distances b.place_id) ∧
    ∀ k : WithTop ℚ,
      (sortPlacesByDistance distances places).filter
          (fun p => decide (jsDistKey distances p.place_id = k)) =
        places.filter (fun p => decide (jsDistKey distances p.place_id = k)) := by
  have hkey : sortPlacesByDistance distances places =
      jsStableSort (fun a b =>
        decide ((fun p : Place => jsDistKey distances p.place_id) a ≤
          (fun p : Place => jsDistKey distances p.place_id) b)) places := rfl
  refine ⟨jsStableSort_perm _ _, ?_, ?_⟩
  · rw [hkey]
    exact jsStableSort_pairwise_key (fun p : Place => jsDistKey distances p.place_id) places
  · intro k
    rw [hkey]
    exact jsStableSort_filter_key (fun p : Place => jsDistKey distances p.place_id) places k

/-! ## Claims C7 and C8: walking-time labels -/

/-- Helper: the label of a distance whose walking time is below one minute. -/
theorem calculateWalkingTime_of_lt_one (d : ℚ)
    (h : d * (621371/1000000) / (31/10) * 60 < 1) :
    calculateWalkingTime d = "< 1 min" := by
  simp only [calculateWalkingTime]
  rw [if_pos h]

/-- Helper: the label of a distance whose walking time is in [1, 60). -/
theorem calculateWalkingTime_of_min (d : ℚ)
    (h1 : ¬ d * (621371/1000000) / (31/10) * 60 < 1)
    (h2 : d * (621371/1000000) / (31/10) * 60 < 60) :
    calculateWalkingTime d =
      toString (jsRound (d * (621371/1000000) / (31/10) * 60)) ++ " min" := by
  simp only [calculateWalkingTime]
  rw [if_neg h1, if_pos h2]

/-- The time, in minutes, that a walking-time label denotes: `< 1 min` is any
time below one minute, `N min` is `N`, `H hr`/`H hrs` is `60 H`, and
`H hr M min` is `60 H + M`. -/
def labelDenotes (s : String) (t : ℚ) : Prop :=
  (s = "< 1 min" ∧ 0 ≤ t ∧ t < 1) ∨
  (∃ n : ℤ, s = toString n ++ " min" ∧ t = n) ∨
  (∃ h : ℤ, (s = toString h ++ " hr" ∨ s = toString h ++ " hrs") ∧ t = 60 * h) ∨
  (∃ h m : ℤ, s = toString h ++ " hr " ++ toString m ++ " min" ∧ t = 60 * h + m)

/-- C7: for an integer walking-time budget of 1 to 30 minutes, converting it
to kilometers and rendering that distance back as a label denotes a time
within one minute of the budget (for 1 minute the label is the sub-minute
label; from 2 minutes on it is exactly the budget). -/
theorem c7_roundTrip (m : ℕ) (h1 : 1 ≤ m) (h2 : m ≤ 30) :
    ∃ t : ℚ, labelDenotes (calculateWalkingTime (walkingTimeToDistanceKm m)) t ∧
      |t - (m : ℚ)| ≤ 1 := by
  have hmv : walkingTimeToDistanceKm (m : ℚ) * (621371/1000000) / (31/10) * 60 =
      (m : ℚ) * (99999720514/100000000000) := by
    unfold walkingTimeToDistanceKm
    ring
  rcases Nat.lt_or_ge m 2 with hm1 | hm2
  · have hm : m = 1 := le_antisymm (Nat.lt_succ_iff.mp hm1) h1
    subst hm
    refine ⟨1/2, Or.inl ⟨?_, by norm_num, by norm_num⟩, by norm_num [abs_le]⟩
    apply calculateWalkingTime_of_lt_one
    rw [hmv]
    norm_num
  · have hm2' : (2 : ℚ) ≤ (m : ℚ) := by exact_mod_cast hm2
    have h30 : (m : ℚ) ≤ 30 := by exact_mod_cast h2
    have hlow : ¬ walkingTimeToDistanceKm (m : ℚ) * (621371/1000000) / (31/10) * 60 < 1 := by
      rw [hmv]
      push_neg
      nlinarith
    have hhigh : walkingTimeToDistanceKm (m : ℚ) * (621371/1000000) / (31/10) * 60 < 60 := by
      rw [hmv]
      nlinarith
    have hround : jsRound ((m : ℚ) * (99999720514/100000000000)) = (m : ℤ) := by
      unfold jsRound
      rw [Int.floor_eq_iff]
      constructor
      · push_cast
        nlinarith
      · push_cast
        nlinarith
    refine ⟨(m : ℚ), Or.inr (Or.inl ⟨(m : ℤ), ?_, by push_cast; ring⟩), by simp⟩
    rw [calculateWalkingTime_of_min _ hlow hhigh, hmv, hround]

/-- C7 witness at a budget of five minutes. -/
theorem c7_roundTrip_witness :
    1 ≤ 5 ∧ 5 ≤ 30 ∧
    ∃ t : ℚ, labelDenotes (calculateWalkingTime (walkingTimeToDistanceKm 5)) t ∧
      |t - (5 : ℚ)| ≤ 1 :=
  ⟨by decide, by decide, by
    have h := c7_roundTrip 5 (by decide) (by decide)
    simpa using h⟩

/-- Claim-side walking time in minutes at 3.1 mph (C8). -/
def specWalkingMinutes (distanceKm : ℚ) : ℚ :=
  distanceKm * (621371/1000000) / (31/10) * 60

/-- Modelled from the claim (C8, as stated): the label is `< 1 min` below one
minute, `N min` below sixty, and otherwise exactly `H hr` when the remaining
minutes round to zero, else `H hr M min`. -/
def specWalkingLabel (distanceKm : ℚ) : String :=
  let t := specWalkingMinutes distanceKm
  if t < 1 then "< 1 min"
  else if t < 60 then toString (jsRound t) ++ " min"
  else if jsRound (t - 60 * (⌊t / 60⌋ : ℚ)) = 0 then toString ⌊t / 60⌋ ++ " hr"
  else toString ⌊t / 60⌋ ++ " hr " ++ toString (jsRound (t - 60 * (⌊t / 60⌋ : ℚ))) ++ " min"

/-- C8 counterexample: at the distance whose walking time is exactly 120
minutes the source emits the plural `2 hrs`, while the claim's format is
exactly `2 hr`. -/
theorem c8_label_counterexample :
    calculateWalkingTime (6200000/621371) = "2 hrs" ∧
    specWalkingLabel (6200000/621371) = "2 hr" ∧
    calculateWalkingTime (6200000/621371) ≠ specWalkingLabel (6200000/621371) := by
  have ht : (6200000/621371 : ℚ) * (621371/1000000) / (31/10) * 60 = 120 := by
    norm_num
  have hfloor : (⌊(120 : ℚ) / 60⌋ : ℤ) = 2 := by norm_num
  have hrem : jsRound ((120 : ℚ) - 60 * ((2 : ℤ) : ℚ)) = 0 := by
    unfold jsRound
    norm_num
  have hcode : calculateWalkingTime (6200000/621371) = "2 hrs" := by
    simp only [calculateWalkingTime]
    rw [ht, if_neg (by norm_num), if_neg (by norm_num), hfloor, hrem,
      if_pos rfl, if_pos (by norm_num)]
    rfl
  have hspec : specWalkingLabel (6200000/621371) = "2 hr" := by
    simp only [specWalkingLabel, specWalkingMinutes]
    rw [ht, if_neg (by norm_num), if_neg (by norm_num), hfloor, hrem, if_pos rfl]
    rfl
  refine ⟨hcode, hspec, ?_⟩
  rw [hcode, hspec]
  decide

/-- C8 amended: for every non-negative distance, with `t` the walking time in
minutes at 3.1 mph, the label is `< 1 min` when `t < 1`; `N min` with `N` the
time rounded to nearest when `t < 60`; and otherwise, with `H = ⌊t/60⌋ ≥ 1`
whole hours and `M` the remaining minutes rounded to nearest, exactly `H hr`
when `M = 0` and `H = 1`, `H hrs` when `M = 0` and `H > 1`, and `H hr M min`
when `M ≠ 0`. -/
theorem c8_label_amended (d : ℚ) (_hd : 0 ≤ d) :
    (specWalkingMinutes d < 1 → calculateWalkingTime d = "< 1 min") ∧
    (1 ≤ specWalkingMinutes d → specWalkingMinutes d < 60 →
      calculateWalkingTime d = toString (jsRound (specWalkingMinutes d)) ++ " min") ∧
    (60 ≤ specWalkingMinutes d →
      jsRound (specWalkingMinutes d - 60 * (⌊specWalkingMinutes d / 60⌋ : ℚ)) = 0 →
      calculateWalkingTime d =
        toString ⌊specWalkingMinutes d / 60⌋ ++ " hr" ++
          (if 1 < ⌊specWalkingMinutes d / 60⌋ then "s" else "") ∧
      1 ≤ ⌊specWalkingMinutes d / 60⌋) ∧
    (60 ≤ specWalkingMinutes d →
      jsRound (specWalkingMinutes d - 60 * (⌊specWalkingMinutes d / 60⌋ : ℚ)) ≠ 0 →
      calculateWalkingTime d =
        toString ⌊specWalkingMinutes d / 60⌋ ++ " hr " ++
          toString (jsRound (specWalkingMinutes d - 60 * (⌊specWalkingMinutes d / 60⌋ : ℚ))) ++
          " min") := by
  refine ⟨?_, ?_, ?_, ?_⟩
  · intro h
    exact calculateWalkingTime_of_lt_one d h
  · intro h1 h2
    exact calculateWalkingTime_of_min d (not_lt.mpr h1) h2
  · intro h hrem
    have hfl : 1 ≤ ⌊specWalkingMinutes d / 60⌋ := by
      rw [Int.le_floor]
      push_cast
      linarith
    refine ⟨?_, hfl⟩
    simp only [calculateWalkingTime]
    rw [if_neg (by unfold specWalkingMinutes at h; push_neg; linarith),
      if_neg (by unfold specWalkingMinutes at h; push_neg; linarith)]
    unfold specWalkingMinutes at hrem
    rw [if_pos hrem]
    rfl
  · intro h hrem
    simp only [calculateWalkingTime]
    rw [if_neg (by unfold specWalkingMinutes at h; push_neg; linarith),
      if_neg (by unfold specWalkingMinutes at h; push_neg; linarith)]
    unfold specWalkingMinutes at hrem
    rw [if_neg hrem]
    rfl

/-- C8 witness of the amended theorem at distance 0. -/
theorem c8_label_amended_witness :
    (0 : ℚ) ≤ 0 ∧
    (specWalkingMinutes 0 < 1 → calculateWalkingTime 0 = "< 1 min") :=
  ⟨le_refl 0, (c8_label_amended 0 (le_refl 0)).1⟩

/-! ## Claim C9: input-shape violations are dropped, not fatal -/

/-- C9: the pipeline's handling of shape violations.  First, the place
formatter equals dropping every raw place whose latitude or longitude is not
numeric and mapping the rest unchanged (so ill-shaped places never reach the
result list while well-shaped ones are processed normally).  Second, a parsed
charger with a missing coordinate component — whose distance is the
non-comparable `NaN`, modelled as `none` — is never attached to any place by
the correlation step.  All embedded pipeline functions are total, so no input
makes the pipeline fail. -/
theorem c9_shape_violations (calculateDistance : Coord → Coord → ℚ) (wt : ℚ)
    (places : List Place) (chargerResults : List (List RawCharger)) :
    (∀ raws : List RawPlaceResult,
      formatPlaces raws =
        (raws.filter (fun r => r.locLat.isSome && r.locLng.isSome)).map mapPlaceResult) ∧
    (∀ c : ParsedCharger, c.location.lat = none ∨ c.location.lng = none →
      c ∉ correlateChargers calculateDistance wt places chargerResults) := by
  constructor
  · intro raws
    unfold formatPlaces
    rw [List.filter_map]
    rfl
  · intro c hbad hmem
    rcases (mem_correlateChargers calculateDistance wt places chargerResults c).mp hmem with
      ⟨place, raws, _, r, _, d, hd, _, rfl⟩
    have hloc : (stampCharger place.place_id (some d) (parseChargerData r)).location =
        (parseChargerData r).location := rfl
    rw [hloc] at hbad
    unfold calculateDistanceOpt at hd
    rcases hbad with hbad | hbad
    · rw [hbad] at hd
      simp at hd
    · rw [hbad] at hd
      cases hl : (parseChargerData r).location.lat <;> rw [hl] at hd <;> simp at hd

/-- A raw charger record with every optional field absent; its parsed
location has both components missing. -/
def c9BadRaw : RawCharger := { ID := 1 }

/-- The parsed form of `c9BadRaw`. -/
def c9BadParsed : ParsedCharger := parseChargerData c9BadRaw

/-- A well-formed place used by witnesses. -/
def witnessPlace : Place := { place_id := "p0", lat := 0, lng := 0 }

/-- C9 witness: the coordinate-less charger is not attached to the witness
place by correlation. -/
theorem c9_shape_violations_witness :
    (c9BadParsed.location.lat = none ∨ c9BadParsed.location.lng = none) ∧
    c9BadParsed ∉ correlateChargers (fun _ _ => 0) 5 [witnessPlace] [[c9BadRaw]] :=
  ⟨Or.inl rfl,
    (c9_shape_violations (fun _ _ => 0) 5 [witnessPlace] [[c9BadRaw]]).2
      c9BadParsed (Or.inl rfl)⟩

/-- C5 witness: one place with an empty raw charger list; its recomputed
count is the length of its (empty) kept segment. -/
theorem c5_correlation_witness :
    ([witnessPlace].map Place.place_id).Nodup ∧
    (witnessPlace, ([] : List RawCharger)) ∈ [witnessPlace].zip [[]] ∧
    ∃ q ∈ updateChargerCounts
        (correlateChargers (fun _ _ => 0) 5 [witnessPlace] [[]]) [witnessPlace],
      q.place_id = witnessPlace.place_id ∧
      q.chargerCount = some
        (correlatePlaceChargers (fun _ _ => 0) (walkingTimeToDistanceKm 5)
          witnessPlace []).length :=
  ⟨by decide, List.mem_singleton.mpr rfl,
    (c5_correlation (fun _ _ => 0) 5 [witnessPlace] [[]]).2 (by decide)
      witnessPlace [] (List.mem_singleton.mpr rfl)⟩

/-! ## Claim C10: featured charger collapses null and false -/

/-- C10: in the featured-charger ranking, an unknown operational status gets
the same rank as an explicit `false` (both rank 0, below `true`), and on a
surviving set with no explicitly operational charger the featured charger is
exactly the first charger of maximal `maxPower` in original order. -/
theorem c10_featured_null_collapse :
    (∀ a b : ParsedCharger, a.status.isOperational = none →
      b.status.isOperational = some false → opRank a = opRank b) ∧
    (∀ a b : ParsedCharger, a.status.isOperational = some true →
      b.status.isOperational ≠ some true → opRank b < opRank a) ∧
    (∀ l : List ParsedCharger, (∀ c ∈ l, c.status.isOperational ≠ some true) →
      featuredChargerOf l = firstMaxByPower l) := by
  refine ⟨?_, ?_, ?_⟩
  · intro a b ha hb
    simp [opRank, ha, hb]
  · intro a b ha hb
    simp [opRank, ha, hb]
  · intro l hl
    unfold featuredChargerOf firstMaxByPower
    rw [jsStableSort_head?]
    suffices aux : ∀ (l : List ParsedCharger) (acc : Option ParsedCharger),
        (∀ c ∈ l, c.status.isOperational ≠ some true) →
        (∀ b, acc = some b → b.status.isOperational ≠ some true) →
        l.foldl (jsPick featuredLe) acc =
          l.foldl (fun best x =>
            match best with
            | none => some x
            | some b => if b.maxPower < x.maxPower then some x else some b) acc by
      exact aux l none hl (by intro b hb; cases hb)
    intro l
    induction l with
    | nil => intro acc _ _; rfl
    | cons x xs ih =>
      intro acc hl hacc
      have hx : x.status.isOperational ≠ some true := hl x (by simp)
      have hltail : ∀ c ∈ xs, c.status.isOperational ≠ some true :=
        fun c hc => hl c (by simp [hc])
      simp only [List.foldl_cons]
      cases acc with
      | none =>
        refine ih (some x) hltail ?_
        intro b hb
        injection hb with hb
        rw [← hb]
        exact hx
      | some b =>
        have hb : b.status.isOperational ≠ some true := hacc b rfl
        have hrank : opRank b = opRank x := by simp [opRank, hb, hx]
        have hstep : jsPick featuredLe (some b) x =
            (if b.maxPower < x.maxPower then some x else some b) := by
          simp only [jsPick, featuredLe, hrank, if_pos rfl]
          by_cases hle : x.maxPower ≤ b.maxPower
          · rw [if_pos (by simpa using hle), if_neg (not_lt.mpr hle)]
          · rw [if_neg (by simpa using hle), if_pos (not_le.mp hle)]
        rw [hstep]
        refine ih (if b.maxPower < x.maxPower then some x else some b) hltail ?_
        intro b' hb'
        by_cases hlt : b.maxPower < x.maxPower
        · rw [if_pos hlt] at hb'
          injection hb' with hb'
          rw [← hb']
          exact hx
        · rw [if_neg hlt] at hb'
          injection hb' with hb'
          rw [← hb']
          exact hb

/-- A canonical charger with unknown operational status, used by the C10
witness. -/
def witnessChargerNull : ParsedCharger :=
  { id := 2, name := "", address := "", location := { lat := none, lng := none }
    speed := "", powerTier := "", maxPower := 0, minPower := none
    hasMultiplePowerLevels := false, isFree := false, cost := ""
    status := { id := none, title := "", isOperational := none, lastUpdated := none }
    access := { title := "", category := "", isMembershipRequired := none,
                isPayAtLocation := none }
    numberOfPoints := none, operator := none, comments := "", connectors := []
    availability := { hasLiveStatus := false } }

/-- A canonical charger with explicitly non-operational status, used by the
C10 witness. -/
def witnessChargerFalse : ParsedCharger :=
  { witnessChargerNull with
    id := 3
    maxPower := 5
    status := { id := none, title := "", isOperational := some false,
                lastUpdated := none } }

/-- A canonical charger with explicitly operational status, used by the C10
witness. -/
def witnessChargerTrue : ParsedCharger :=
  { witnessChargerNull with
    id := 4
    status := { id := none, title := "", isOperational := some true,
                lastUpdated := none } }

/-- C10 witness: the unknown-status and false-status sample chargers get
equal ranks strictly below the rank of an operational one, and on the
two-element list with no operational charger the featured charger is the
first power maximum. -/
theorem c10_featured_null_collapse_witness :
    (witnessChargerNull.status.isOperational = none ∧
     witnessChargerFalse.status.isOperational = some false ∧
     witnessChargerTrue.status.isOperational = some true ∧
     (∀ c ∈ [witnessChargerNull, witnessChargerFalse],
        c.status.isOperational ≠ some true)) ∧
    opRank witnessChargerNull = opRank witnessChargerFalse ∧
    opRank witnessChargerNull < opRank witnessChargerTrue ∧
    featuredChargerOf [witnessChargerNull, witnessChargerFalse] =
      firstMaxByPower [witnessChargerNull, witnessChargerFalse] := by
  have hnotrue : ∀ c ∈ [witnessChargerNull, witnessChargerFalse],
      c.status.isOperational ≠ some true := by
    intro c hc
    rcases List.mem_cons.mp hc with rfl | hc
    · intro h
      cases h
    · rcases List.mem_cons.mp hc with rfl | hc
      · intro h
        cases h
      · cases hc
  refine ⟨⟨rfl, rfl, rfl, hnotrue⟩, ?_, ?_, ?_⟩
  · exact c10_featured_null_collapse.1 witnessChargerNull witnessChargerFalse rfl rfl
  · exact c10_featured_null_collapse.2.1 witnessChargerTrue witnessChargerNull rfl
      (by intro h; cases h)
  · exact c10_featured_null_collapse.2.2 [witnessChargerNull, witnessChargerFalse] hnotrue

end ChargeFinder
